import Mathlib

/-!
Shallow embedding of the module/iteration store of the experiment-module
repository.  The store is the state held by the top-level component
`ExperimentModuleApp` (src/pages/ExperimentModuleApp/index.tsx): a list of
module records, transformed by the handler functions defined there.  Each
handler is translated here as a pure function from the module list to a new
module list; the inline arrow functions passed to `Array.prototype.map` /
`filter` in the source are named top-level definitions so that per-element
facts can be stated about them.
-/

/-- The `status` field of an iteration: `"completed" | "adding" | "draft"`
(src/components, `Iteration` interface). -/
inductive IterationStatus where
  | completed
  | adding
  | draft
deriving DecidableEq, Repr

/-- The `Iteration` record (`{ id, title, isSelected, status }`). -/
structure Iteration where
  id : String
  title : String
  isSelected : Bool
  status : IterationStatus
deriving DecidableEq, Repr

/-- The `ExperimentModuleData` record
(`{ id, title, isLocked, isExpanded, iterations }`). -/
structure ExperimentModuleData where
  id : String
  title : String
  isLocked : Bool
  isExpanded : Bool
  iterations : List Iteration
deriving DecidableEq, Repr

/-- The initial `useState` value of `modules` in `ExperimentModuleApp`:
one module `em-1` with no iterations. -/
def initialModules : List ExperimentModuleData :=
  [{ id := "em-1", title := "Experiment Module", isLocked := false,
     isExpanded := false, iterations := [] }]

/-- `addNewModule`: appends a fresh unlocked, collapsed, empty module whose id
is `em-` followed by the new collection length. -/
def addNewModule (modules : List ExperimentModuleData) : List ExperimentModuleData :=
  modules ++ [{ id := "em-" ++ Nat.repr (modules.length + 1),
                title := "Experiment Module", isLocked := false,
                isExpanded := false, iterations := [] }]

/-- `handleToggleExpand`: flips `isExpanded` on the module whose id matches. -/
def handleToggleExpand (modules : List ExperimentModuleData) (moduleId : String) :
    List ExperimentModuleData :=
  modules.map fun module =>
    if module.id = moduleId then { module with isExpanded := !module.isExpanded }
    else module

/-- The per-module function mapped by `handleToggleLock`: flips `isLocked`;
`isExpanded` becomes `module.isLocked ? module.isExpanded : false`
(collapse when locking, keep when unlocking). -/
def toggleLockModule (moduleId : String) (module : ExperimentModuleData) :
    ExperimentModuleData :=
  if module.id = moduleId then
    { module with isLocked := !module.isLocked,
                  isExpanded := if module.isLocked then module.isExpanded else false }
  else module

/-- `handleToggleLock`. -/
def handleToggleLock (modules : List ExperimentModuleData) (moduleId : String) :
    List ExperimentModuleData :=
  modules.map (toggleLockModule moduleId)

/-- `handleLockModule`: unconditionally `isLocked := true`, `isExpanded := false`
on the matching module. -/
def handleLockModule (modules : List ExperimentModuleData) (moduleId : String) :
    List ExperimentModuleData :=
  modules.map fun module =>
    if module.id = moduleId then { module with isLocked := true, isExpanded := false }
    else module

/-- The per-iteration function mapped by `handleResetModule`:
`{ ...iteration, isSelected: false }`. -/
def resetIteration (iteration : Iteration) : Iteration :=
  { iteration with isSelected := false }

/-- The per-module function mapped by `handleResetModule`. -/
def resetModuleData (moduleId : String) (module : ExperimentModuleData) :
    ExperimentModuleData :=
  if module.id = moduleId then
    { module with iterations := module.iterations.map resetIteration }
  else module

/-- `handleResetModule`. -/
def handleResetModule (modules : List ExperimentModuleData) (moduleId : String) :
    List ExperimentModuleData :=
  modules.map (resetModuleData moduleId)

/-- The per-iteration function mapped by `handleToggleSelection`:
flips `isSelected` on the matching iteration, with no check of status. -/
def toggleSelectionIteration (iterationId : String) (iteration : Iteration) :
    Iteration :=
  if iteration.id = iterationId then
    { iteration with isSelected := !iteration.isSelected }
  else iteration

/-- The per-module function mapped by `handleToggleSelection`, with no check of
the module's lock state. -/
def toggleSelectionModule (moduleId iterationId : String)
    (module : ExperimentModuleData) : ExperimentModuleData :=
  if module.id = moduleId then
    { module with iterations := module.iterations.map (toggleSelectionIteration iterationId) }
  else module

/-- `handleToggleSelection`. -/
def handleToggleSelection (modules : List ExperimentModuleData)
    (moduleId iterationId : String) : List ExperimentModuleData :=
  modules.map (toggleSelectionModule moduleId iterationId)

/-- `getNextIterationNumber`: `(module?.iterations.length || 0) + 1`, where the
module is looked up by id with `Array.prototype.find`.  JavaScript `x || 0`
yields `0` both for `undefined` (module not found) and for `0`, which is what
`Option.getD 0` over the mapped length computes. -/
def getNextIterationNumber (modules : List ExperimentModuleData) (moduleId : String) :
    Nat :=
  ((modules.find? (fun m => m.id == moduleId)).map
      (fun m => m.iterations.length)).getD 0 + 1

/-- The `newIterationId` computed at the start of `handleAddIterationComplete`:
the template literal `EM-${nextIterationNumber}`. -/
def newIterationId (modules : List ExperimentModuleData) (moduleId : String) : String :=
  "EM-" ++ Nat.repr (getNextIterationNumber modules moduleId)

/-- First phase of `handleAddIterationComplete` (the spec's
`beginAddIteration`): the synchronous `setModules` call that appends
`{ id: newIterationId, title: "Adding iteration...", isSelected: false,
status: "adding" }` to the matching module.  The id is computed from the
collection as it was when the handler ran, exactly as the source closure
captures `modules`. -/
def beginAddIteration (modules : List ExperimentModuleData) (moduleId : String) :
    List ExperimentModuleData :=
  modules.map fun module =>
    if module.id = moduleId then
      { module with
          iterations := module.iterations ++
            [{ id := newIterationId modules moduleId,
               title := "Adding iteration...", isSelected := false,
               status := .adding }] }
    else module

/-- JavaScript `s || fallback` on an optional string: the fallback is used both
when the value is absent (`undefined`) and when it is the empty string
(falsy). -/
def jsOrString (s : Option String) (fallback : String) : String :=
  match s with
  | none => fallback
  | some v => if v = "" then fallback else v

/-- The per-iteration function mapped inside the `setTimeout` callback of
`handleAddIterationComplete`: on the matching id, set
`title: prompt || "Iteration title"` and `status: "completed"`. -/
def completeIteration (iterationId : String) (prompt : Option String)
    (iteration : Iteration) : Iteration :=
  if iteration.id = iterationId then
    { iteration with title := jsOrString prompt "Iteration title",
                     status := .completed }
  else iteration

/-- Second phase of `handleAddIterationComplete` (the spec's
`completeAddIteration`): the `setModules` call inside the `setTimeout`
callback. -/
def completeAddIteration (modules : List ExperimentModuleData)
    (moduleId iterationId : String) (prompt : Option String) :
    List ExperimentModuleData :=
  modules.map fun module =>
    if module.id = moduleId then
      { module with iterations := module.iterations.map (completeIteration iterationId prompt) }
    else module

/-- The per-module function mapped by `handleRemoveIteration`: keeps the
iterations whose id differs (`Array.prototype.filter` with `!==`). -/
def removeIterationFromModule (moduleId iterationId : String)
    (module : ExperimentModuleData) : ExperimentModuleData :=
  if module.id = moduleId then
    { module with iterations := module.iterations.filter (fun iteration => iteration.id != iterationId) }
  else module

/-- `handleRemoveIteration` (with the captured `currentModuleId` /
`currentIterationId` made explicit parameters). -/
def handleRemoveIteration (modules : List ExperimentModuleData)
    (moduleId iterationId : String) : List ExperimentModuleData :=
  modules.map (removeIterationFromModule moduleId iterationId)

/-- `LengthOption` of `LengthSelectionModal`:
`"short" | "medium" | "very-long" | "custom"` (`veryLong` stands for the
string `"very-long"`). -/
inductive LengthOption where
  | short
  | medium
  | veryLong
  | custom
deriving DecidableEq, Repr

/-- `getLengthCategory` from `LengthSelectionModal`: `length <= 15` → short,
otherwise `length < 35` → medium, otherwise very-long. -/
def getLengthCategory (title : String) : LengthOption :=
  if title.length ≤ 15 then .short
  else if title.length < 35 then .medium
  else .veryLong

/-- The argument `AddIterationModal.handleSubmit` passes to `onConfirm`:
`showPromptInput ? prompt.trim() || undefined : undefined` — a whitespace-only
input trims to `""`, which is falsy, hence `undefined` (here `none`). -/
def handleSubmitPrompt (showPromptInput : Bool) (prompt : String) : Option String :=
  if showPromptInput then
    (if prompt.trim = "" then none else some prompt.trim)
  else none

/-- One store operation, for reasoning about operation histories. -/
inductive StoreOp where
  | createModule
  | toggleExpand (moduleId : String)
  | toggleLock (moduleId : String)
  | lockModule (moduleId : String)
  | resetModule (moduleId : String)
  | toggleSelection (moduleId iterationId : String)
  | beginAdd (moduleId : String)
  | completeAdd (moduleId iterationId : String) (prompt : Option String)
  | removeIteration (moduleId iterationId : String)
deriving DecidableEq, Repr

/-- Interpretation of one operation by the corresponding handler. -/
def applyOp (modules : List ExperimentModuleData) : StoreOp → List ExperimentModuleData
  | .createModule => addNewModule modules
  | .toggleExpand mid => handleToggleExpand modules mid
  | .toggleLock mid => handleToggleLock modules mid
  | .lockModule mid => handleLockModule modules mid
  | .resetModule mid => handleResetModule modules mid
  | .toggleSelection mid iid => handleToggleSelection modules mid iid
  | .beginAdd mid => beginAddIteration modules mid
  | .completeAdd mid iid prompt => completeAddIteration modules mid iid prompt
  | .removeIteration mid iid => handleRemoveIteration modules mid iid

/-- Run a history of operations left to right. -/
def applyOps (modules : List ExperimentModuleData) (ops : List StoreOp) :
    List ExperimentModuleData :=
  ops.foldl applyOp modules

/-- Whether an operation is a removal. -/
def isRemoval : StoreOp → Bool
  | .removeIteration _ _ => true
  | _ => false

/-- The id the store gives the iteration created at (0-based) position `i` of a
module built with no removals: `EM-` followed by `i + 1`. -/
def iterationIdAt (i : Nat) : String :=
  "EM-" ++ Nat.repr (i + 1)

/-- Invariant: a module's iteration ids are exactly the position-derived
tokens `EM-1 … EM-k`. -/
def SeqIds (module : ExperimentModuleData) : Prop :=
  module.iterations.map (fun it => it.id) =
    (List.range module.iterations.length).map iterationIdAt

/-- Invariant: the module ids are exactly `em-1 … em-n` in creation order. -/
def ModuleIds (modules : List ExperimentModuleData) : Prop :=
  modules.map (fun m => m.id) =
    (List.range modules.length).map (fun i => "em-" ++ Nat.repr (i + 1))

/-- Combined store invariant along removal-free histories. -/
def StoreInv (modules : List ExperimentModuleData) : Prop :=
  ModuleIds modules ∧ ∀ m ∈ modules, SeqIds m

/-- Decimal un-parsing step: `acc * 10 +` the digit value of `c`. -/
def digitFoldStep (acc : Nat) (c : Char) : Nat :=
  acc * 10 + (c.toNat - 48)

/-- Left fold of `digitFoldStep`, an inverse of `Nat.repr` used to prove
`Nat.repr` injective. -/
def digitFold (l : List Char) : Nat :=
  l.foldl digitFoldStep 0

/-! ### `Nat.repr` is injective

`Nat.repr` renders via `Nat.toDigitsCore` with a fuel argument and an
accumulator; the lemmas below recover its structural recursion and invert it
with `digitFold`, giving injectivity of the id tokens `EM-1`, `EM-2`, …  -/

theorem toDigitsCore_append_acc : ∀ (fuel n : Nat) (ds : List Char),
    Nat.toDigitsCore 10 fuel n ds = Nat.toDigitsCore 10 fuel n [] ++ ds := by
  intro fuel
  induction fuel with
  | zero => intro n ds; simp [Nat.toDigitsCore]
  | succ f ih =>
    intro n ds
    simp only [Nat.toDigitsCore]
    by_cases h : n / 10 = 0
    · simp [h]
    · simp only [if_neg h]
      rw [ih (n / 10) (Nat.digitChar (n % 10) :: ds),
        ih (n / 10) [Nat.digitChar (n % 10)]]
      simp

theorem toDigitsCore_of_lt : ∀ n : Nat, ∀ fuel : Nat, n < fuel →
    Nat.toDigitsCore 10 fuel n [] = Nat.toDigits 10 n := by
  intro n
  induction n using Nat.strong_induction_on with
  | _ n ih =>
    intro fuel hf
    match fuel, hf with
    | f + 1, hf =>
      show Nat.toDigitsCore 10 (f + 1) n [] = Nat.toDigitsCore 10 (n + 1) n []
      simp only [Nat.toDigitsCore]
      by_cases h : n / 10 = 0
      · simp [h]
      · simp only [if_neg h]
        have hn0 : n ≠ 0 := by intro e; rw [e] at h; simp at h
        have hlt : n / 10 < n := Nat.div_lt_self (Nat.pos_of_ne_zero hn0) (by omega)
        rw [toDigitsCore_append_acc f, toDigitsCore_append_acc n,
          ih (n / 10) hlt f (by omega), ih (n / 10) hlt n (by omega)]

theorem toDigits_base (n : Nat) (h : n / 10 = 0) :
    Nat.toDigits 10 n = [Nat.digitChar (n % 10)] := by
  show Nat.toDigitsCore 10 (n + 1) n [] = _
  simp [Nat.toDigitsCore, h]

theorem toDigits_step (n : Nat) (h : n / 10 ≠ 0) :
    Nat.toDigits 10 n = Nat.toDigits 10 (n / 10) ++ [Nat.digitChar (n % 10)] := by
  show Nat.toDigitsCore 10 (n + 1) n [] = _
  simp only [Nat.toDigitsCore, if_neg h]
  have hn0 : n ≠ 0 := by intro e; rw [e] at h; simp at h
  have hlt : n / 10 < n := Nat.div_lt_self (Nat.pos_of_ne_zero hn0) (by omega)
  rw [toDigitsCore_append_acc, toDigitsCore_of_lt (n / 10) n hlt]

theorem digitChar_toNat (m : Nat) (h : m < 10) : (Nat.digitChar m).toNat = 48 + m := by
  interval_cases m <;> rfl

theorem digitFold_append (l : List Char) (c : Char) :
    digitFold (l ++ [c]) = digitFold l * 10 + (c.toNat - 48) := by
  simp [digitFold, List.foldl_append, digitFoldStep]

theorem digitFold_toDigits : ∀ n : Nat, digitFold (Nat.toDigits 10 n) = n := by
  intro n
  induction n using Nat.strong_induction_on with
  | _ n ih =>
    by_cases h : n / 10 = 0
    · rw [toDigits_base n h]
      have h10 : n < 10 := by omega
      have hm : n % 10 = n := Nat.mod_eq_of_lt h10
      simp [digitFold, digitFoldStep, hm, digitChar_toNat n h10]
    · have hn0 : n ≠ 0 := by intro e; rw [e] at h; simp at h
      have hlt : n / 10 < n := Nat.div_lt_self (Nat.pos_of_ne_zero hn0) (by omega)
      rw [toDigits_step n h, digitFold_append,
        digitChar_toNat (n % 10) (by omega), ih (n / 10) hlt]
      omega

theorem repr_data_inj (a b : Nat) (h : (Nat.repr a).data = (Nat.repr b).data) :
    a = b := by
  have hd : Nat.toDigits 10 a = Nat.toDigits 10 b := h
  have := congrArg digitFold hd
  rwa [digitFold_toDigits, digitFold_toDigits] at this

theorem append_repr_inj (pre : String) (a b : Nat)
    (h : pre ++ Nat.repr a = pre ++ Nat.repr b) : a = b := by
  have hd := congrArg String.data h
  simp only [String.data_append] at hd
  exact repr_data_inj a b (List.append_cancel_left hd)

theorem iterationIdAt_inj : Function.Injective iterationIdAt := by
  intro a b h
  have := append_repr_inj "EM-" (a + 1) (b + 1) h
  omega

theorem nodup_iterationIds (k : Nat) : ((List.range k).map iterationIdAt).Nodup :=
  (List.nodup_range k).map iterationIdAt_inj

/-! ### List helpers -/

theorem map_eq_self_of_id {α : Type} (l : List α) (f : α → α)
    (h : ∀ a ∈ l, f a = a) : l.map f = l :=
  (List.map_congr_left h).trans (List.map_id l)

theorem length_filter_not_add {α : Type} (l : List α) (p : α → Bool) :
    (l.filter (fun a => !(p a))).length + (l.filter p).length = l.length := by
  induction l with
  | nil => rfl
  | cons a t ih =>
    by_cases h : p a <;> simp [List.filter_cons, h] <;> omega

theorem filter_idempotent {α : Type} (l : List α) (p : α → Bool) :
    (l.filter p).filter p = l.filter p := by
  apply List.filter_eq_self.mpr
  intro a ha
  exact List.of_mem_filter ha

/-- C4. The title-length classifier is the stated pure function: `≤ 15` is
`short`, strictly between 15 and 35 is `medium`, `≥ 35` is `very-long`; the
listed example lengths (5, 15, 16, 34, 35 characters) classify as stated. -/
theorem getLengthCategory_classifies (t : String) :
    (t.length ≤ 15 → getLengthCategory t = .short) ∧
    (15 < t.length → t.length < 35 → getLengthCategory t = .medium) ∧
    (35 ≤ t.length → getLengthCategory t = .veryLong) ∧
    getLengthCategory "Short" = .short ∧
    getLengthCategory "123456789012345" = .short ∧
    getLengthCategory "1234567890123456" = .medium ∧
    getLengthCategory "1234567890123456789012345678901234" = .medium ∧
    getLengthCategory "12345678901234567890123456789012345" = .veryLong := by
  refine ⟨?_, ?_, ?_, by decide, by decide, by decide, by decide, by decide⟩
  · intro h
    simp [getLengthCategory, h]
  · intro h1 h2
    have hn : ¬ t.length ≤ 15 := by omega
    simp [getLengthCategory, hn, h2]
  · intro h
    have h1 : ¬ t.length ≤ 15 := by omega
    have h2 : ¬ t.length < 35 := by omega
    simp [getLengthCategory, h1, h2]

theorem getLengthCategory_classifies_witness :
    getLengthCategory "Short" = .short ∧
    getLengthCategory "1234567890123456" = .medium ∧
    getLengthCategory "12345678901234567890123456789012345" = .veryLong :=
  ⟨(getLengthCategory_classifies "Short").1 (by decide),
   (getLengthCategory_classifies "1234567890123456").2.1 (by decide) (by decide),
   (getLengthCategory_classifies "12345678901234567890123456789012345").2.2.1
     (by decide)⟩

/-- C2. `toggleLock` twice returns every module's `isLocked` to its original
value; one `toggleLock` on an unlocked module sets `isLocked := true` and
forces `isExpanded := false`, and on a locked module sets `isLocked := false`
leaving `isExpanded` unchanged (no auto re-expand). -/
theorem toggleLock_involution_and_collapse (s : List ExperimentModuleData)
    (mid : String) :
    (handleToggleLock (handleToggleLock s mid) mid).map ExperimentModuleData.isLocked
      = s.map ExperimentModuleData.isLocked ∧
    (∀ m : ExperimentModuleData, m.id = mid → m.isLocked = false →
      toggleLockModule mid m = { m with isLocked := true, isExpanded := false }) ∧
    (∀ m : ExperimentModuleData, m.id = mid → m.isLocked = true →
      toggleLockModule mid m = { m with isLocked := false }) := by
  refine ⟨?_, ?_, ?_⟩
  · simp only [handleToggleLock, List.map_map]
    apply List.map_congr_left
    intro m _
    by_cases h : m.id = mid <;> simp [toggleLockModule, h]
  · intro m hid hlock
    simp [toggleLockModule, hid, hlock]
  · intro m hid hlock
    simp [toggleLockModule, hid, hlock]

theorem toggleLock_involution_and_collapse_witness :
    (handleToggleLock (handleToggleLock initialModules "em-1") "em-1").map
        ExperimentModuleData.isLocked
      = initialModules.map ExperimentModuleData.isLocked ∧
    toggleLockModule "em-1"
        { id := "em-1", title := "Experiment Module", isLocked := false,
          isExpanded := true, iterations := [] }
      = { id := "em-1", title := "Experiment Module", isLocked := true,
          isExpanded := false, iterations := [] } ∧
    toggleLockModule "em-1"
        { id := "em-1", title := "Experiment Module", isLocked := true,
          isExpanded := false, iterations := [] }
      = { id := "em-1", title := "Experiment Module", isLocked := false,
          isExpanded := false, iterations := [] } :=
  ⟨(toggleLock_involution_and_collapse initialModules "em-1").1,
   (toggleLock_involution_and_collapse initialModules "em-1").2.1
     { id := "em-1", title := "Experiment Module", isLocked := false,
       isExpanded := true, iterations := [] } rfl rfl,
   (toggleLock_involution_and_collapse initialModules "em-1").2.2
     { id := "em-1", title := "Experiment Module", isLocked := true,
       isExpanded := false, iterations := [] } rfl rfl⟩

theorem toggleSelectionIteration_involutive (iid : String) (it : Iteration) :
    toggleSelectionIteration iid (toggleSelectionIteration iid it) = it := by
  obtain ⟨i0, t0, s0, st0⟩ := it
  by_cases hi : i0 = iid <;> simp [toggleSelectionIteration, hi]

theorem toggleSelectionModule_involutive (mid iid : String)
    (m : ExperimentModuleData) :
    toggleSelectionModule mid iid (toggleSelectionModule mid iid m) = m := by
  obtain ⟨mi, mt, ml, me, mits⟩ := m
  by_cases h : mi = mid
  · simp [toggleSelectionModule, h, List.map_map, Function.comp_def,
      toggleSelectionIteration_involutive]
  · simp [toggleSelectionModule, h]

/-- C6. `toggleSelection` is its own inverse on the whole collection, and the
store flips `isSelected` unconditionally given matching ids: the per-iteration
function flips regardless of `status`, and the per-module function rewrites the
iterations regardless of `isLocked`. -/
theorem toggleSelection_involutive_unconditional (s : List ExperimentModuleData)
    (mid iid : String) :
    handleToggleSelection (handleToggleSelection s mid iid) mid iid = s ∧
    (∀ it : Iteration, it.id = iid →
      toggleSelectionIteration iid it = { it with isSelected := !it.isSelected }) ∧
    (∀ m : ExperimentModuleData, m.id = mid →
      (toggleSelectionModule mid iid m).iterations
        = m.iterations.map (toggleSelectionIteration iid)) := by
  refine ⟨?_, ?_, ?_⟩
  · simp only [handleToggleSelection, List.map_map]
    exact map_eq_self_of_id _ _
      (fun m _ => toggleSelectionModule_involutive mid iid m)
  · intro it hi
    simp [toggleSelectionIteration, hi]
  · intro m hm
    simp [toggleSelectionModule, hm]

theorem toggleSelection_involutive_unconditional_witness :
    handleToggleSelection (handleToggleSelection initialModules "em-1" "EM-1")
        "em-1" "EM-1" = initialModules ∧
    toggleSelectionIteration "EM-1"
        { id := "EM-1", title := "t", isSelected := false, status := .adding }
      = { id := "EM-1", title := "t", isSelected := true, status := .adding } ∧
    (toggleSelectionModule "em-1" "EM-1"
        { id := "em-1", title := "Experiment Module", isLocked := true,
          isExpanded := false, iterations := [] }).iterations
      = ([] : List Iteration).map (toggleSelectionIteration "EM-1") :=
  ⟨(toggleSelection_involutive_unconditional initialModules "em-1" "EM-1").1,
   (toggleSelection_involutive_unconditional initialModules "em-1" "EM-1").2.1
     { id := "EM-1", title := "t", isSelected := false, status := .adding } rfl,
   (toggleSelection_involutive_unconditional initialModules "em-1" "EM-1").2.2
     { id := "em-1", title := "Experiment Module", isLocked := true,
       isExpanded := false, iterations := [] } rfl⟩

theorem resetModuleData_idem (mid : String) (m : ExperimentModuleData) :
    resetModuleData mid (resetModuleData mid m) = resetModuleData mid m := by
  obtain ⟨mi, mt, ml, me, mits⟩ := m
  by_cases h : mi = mid
  · simp [resetModuleData, h, List.map_map, Function.comp_def, resetIteration]
  · simp [resetModuleData, h]

/-- C7. `resetModule` sets `isSelected := false` on every iteration of the
matching module and changes nothing else — each iteration's id, title and
status, the module's id, title, lock and expand flags, and every non-matching
module are unchanged — and it is idempotent. -/
theorem resetModule_clears_selection_only (s : List ExperimentModuleData)
    (mid : String) :
    handleResetModule (handleResetModule s mid) mid = handleResetModule s mid ∧
    (∀ m : ExperimentModuleData, m.id ≠ mid → resetModuleData mid m = m) ∧
    (∀ m : ExperimentModuleData, m.id = mid →
      (resetModuleData mid m).id = m.id ∧
      (resetModuleData mid m).title = m.title ∧
      (resetModuleData mid m).isLocked = m.isLocked ∧
      (resetModuleData mid m).isExpanded = m.isExpanded ∧
      (resetModuleData mid m).iterations.map (fun it => (it.id, it.title, it.status))
        = m.iterations.map (fun it => (it.id, it.title, it.status)) ∧
      ∀ it ∈ (resetModuleData mid m).iterations, it.isSelected = false) := by
  refine ⟨?_, ?_, ?_⟩
  · simp only [handleResetModule, List.map_map]
    apply List.map_congr_left
    intro m _
    exact resetModuleData_idem mid m
  · intro m h
    simp [resetModuleData, h]
  · intro m h
    obtain ⟨mi, mt, ml, me, mits⟩ := m
    have h2 : mi = mid := h
    refine ⟨by simp [resetModuleData, h2], by simp [resetModuleData, h2],
      by simp [resetModuleData, h2], by simp [resetModuleData, h2], ?_, ?_⟩
    · simp [resetModuleData, h2, List.map_map, Function.comp_def, resetIteration]
    · intro it hit
      simp only [resetModuleData, if_pos h2] at hit
      obtain ⟨it0, _, rfl⟩ := List.mem_map.mp hit
      rfl

theorem toggleSelection_noop_of_absent (s : List ExperimentModuleData)
    (mid iid : String)
    (hm : ∀ m ∈ s, m.id = mid → ∀ it ∈ m.iterations, it.id ≠ iid) :
    handleToggleSelection s mid iid = s := by
  unfold handleToggleSelection
  apply map_eq_self_of_id
  intro m hmem
  unfold toggleSelectionModule
  by_cases h : m.id = mid
  · rw [if_pos h]
    have hits : m.iterations.map (toggleSelectionIteration iid) = m.iterations := by
      apply map_eq_self_of_id
      intro it hit
      unfold toggleSelectionIteration
      rw [if_neg (hm m hmem h it hit)]
    rw [hits]
  · rw [if_neg h]

theorem completeAdd_noop_of_absent (s : List ExperimentModuleData)
    (mid iid : String) (prompt : Option String)
    (hm : ∀ m ∈ s, m.id = mid → ∀ it ∈ m.iterations, it.id ≠ iid) :
    completeAddIteration s mid iid prompt = s := by
  unfold completeAddIteration
  apply map_eq_self_of_id
  intro m hmem
  by_cases h : m.id = mid
  · rw [if_pos h]
    have hits : m.iterations.map (completeIteration iid prompt) = m.iterations := by
      apply map_eq_self_of_id
      intro it hit
      unfold completeIteration
      rw [if_neg (hm m hmem h it hit)]
    rw [hits]
  · rw [if_neg h]

theorem removeIteration_noop_of_absent (s : List ExperimentModuleData)
    (mid iid : String)
    (hm : ∀ m ∈ s, m.id = mid → ∀ it ∈ m.iterations, it.id ≠ iid) :
    handleRemoveIteration s mid iid = s := by
  unfold handleRemoveIteration
  apply map_eq_self_of_id
  intro m hmem
  unfold removeIterationFromModule
  by_cases h : m.id = mid
  · rw [if_pos h]
    have hits : m.iterations.filter (fun it => it.id != iid) = m.iterations := by
      apply List.filter_eq_self.mpr
      intro it hit
      simpa [bne_iff_ne] using hm m hmem h it hit
    rw [hits]
  · rw [if_neg h]

/-- C8. Every store operation is a total Lean function (hence never throws),
and invoked with a module id matching no module — or, for the
iteration-addressed operations, an iteration id matching no iteration of the
named module — it returns the input collection unchanged. -/
theorem store_operations_noop_on_missing_ids (s : List ExperimentModuleData)
    (mid iid : String) (prompt : Option String) :
    ((∀ m ∈ s, m.id ≠ mid) →
      handleToggleExpand s mid = s ∧
      handleToggleLock s mid = s ∧
      handleLockModule s mid = s ∧
      handleResetModule s mid = s ∧
      handleToggleSelection s mid iid = s ∧
      beginAddIteration s mid = s ∧
      completeAddIteration s mid iid prompt = s ∧
      handleRemoveIteration s mid iid = s) ∧
    ((∀ m ∈ s, m.id = mid → ∀ it ∈ m.iterations, it.id ≠ iid) →
      handleToggleSelection s mid iid = s ∧
      completeAddIteration s mid iid prompt = s ∧
      handleRemoveIteration s mid iid = s) := by
  constructor
  · intro hm
    refine ⟨?_, ?_, ?_, ?_, ?_, ?_, ?_, ?_⟩
    · unfold handleToggleExpand
      exact map_eq_self_of_id _ _ (fun m hmem => by rw [if_neg (hm m hmem)])
    · unfold handleToggleLock
      exact map_eq_self_of_id _ _ (fun m hmem => by
        unfold toggleLockModule; rw [if_neg (hm m hmem)])
    · unfold handleLockModule
      exact map_eq_self_of_id _ _ (fun m hmem => by rw [if_neg (hm m hmem)])
    · unfold handleResetModule
      exact map_eq_self_of_id _ _ (fun m hmem => by
        unfold resetModuleData; rw [if_neg (hm m hmem)])
    · unfold handleToggleSelection
      exact map_eq_self_of_id _ _ (fun m hmem => by
        unfold toggleSelectionModule; rw [if_neg (hm m hmem)])
    · unfold beginAddIteration
      exact map_eq_self_of_id _ _ (fun m hmem => by rw [if_neg (hm m hmem)])
    · unfold completeAddIteration
      exact map_eq_self_of_id _ _ (fun m hmem => by rw [if_neg (hm m hmem)])
    · unfold handleRemoveIteration
      exact map_eq_self_of_id _ _ (fun m hmem => by
        unfold removeIterationFromModule; rw [if_neg (hm m hmem)])
  · intro hm
    exact ⟨toggleSelection_noop_of_absent s mid iid hm,
      completeAdd_noop_of_absent s mid iid prompt hm,
      removeIteration_noop_of_absent s mid iid hm⟩

theorem store_operations_noop_on_missing_ids_witness :
    (handleToggleExpand initialModules "missing" = initialModules ∧
     handleToggleLock initialModules "missing" = initialModules ∧
     handleLockModule initialModules "missing" = initialModules ∧
     handleResetModule initialModules "missing" = initialModules ∧
     handleToggleSelection initialModules "missing" "EM-9" = initialModules ∧
     beginAddIteration initialModules "missing" = initialModules ∧
     completeAddIteration initialModules "missing" "EM-9" none = initialModules ∧
     handleRemoveIteration initialModules "missing" "EM-9" = initialModules) ∧
    (handleToggleSelection initialModules "em-1" "EM-9" = initialModules ∧
     completeAddIteration initialModules "em-1" "EM-9" none = initialModules ∧
     handleRemoveIteration initialModules "em-1" "EM-9" = initialModules) :=
  ⟨(store_operations_noop_on_missing_ids initialModules "missing" "EM-9" none).1
     (by decide),
   (store_operations_noop_on_missing_ids initialModules "em-1" "EM-9" none).2
     (by decide)⟩

theorem find?_id_map (s : List ExperimentModuleData) (mid : String)
    (f : ExperimentModuleData → ExperimentModuleData)
    (hid : ∀ m, (f m).id = m.id) :
    (s.map f).find? (fun mo => mo.id == mid)
      = (s.find? (fun mo => mo.id == mid)).map f := by
  rw [List.find?_map]
  have hp : ((fun mo : ExperimentModuleData => mo.id == mid) ∘ f)
      = (fun mo => mo.id == mid) := by
    funext mo
    simp [Function.comp, hid]
  rw [hp]

/-- C1 (amended). For the module found by id, `beginAddIteration` appends
exactly one new iteration whose id is `EM-` followed by the module's current
iteration count plus one (so a fresh module's first iteration has id `EM-1`),
with placeholder title `"Adding iteration..."`, `isSelected = false` and
status `adding`; on a fresh module, a subsequent `completeAddIteration` with
`EM-1` and title `"My Title"` yields the iteration
`{id := "EM-1", title := "My Title", status := completed,
isSelected := false}`. -/
theorem beginAdd_appends_next_id (s : List ExperimentModuleData) (mid : String)
    (m : ExperimentModuleData)
    (hfind : s.find? (fun mo => mo.id == mid) = some m) :
    newIterationId s mid = "EM-" ++ Nat.repr (m.iterations.length + 1) ∧
    ((beginAddIteration s mid).find? (fun mo => mo.id == mid)).map
        (fun mo => mo.iterations)
      = some (m.iterations ++
          [{ id := newIterationId s mid, title := "Adding iteration...",
             isSelected := false, status := .adding }]) ∧
    (m.iterations = [] →
      ((completeAddIteration (beginAddIteration s mid) mid "EM-1"
          (some "My Title")).find? (fun mo => mo.id == mid)).map
          (fun mo => mo.iterations)
        = some [{ id := "EM-1", title := "My Title", isSelected := false,
                  status := .completed }]) := by
  have hmid : m.id = mid := by simpa using List.find?_some hfind
  have h1 : newIterationId s mid = "EM-" ++ Nat.repr (m.iterations.length + 1) := by
    unfold newIterationId getNextIterationNumber
    rw [hfind]
    rfl
  have hbegin : (beginAddIteration s mid).find? (fun mo => mo.id == mid)
      = some { m with iterations := m.iterations ++
          [{ id := newIterationId s mid, title := "Adding iteration...",
             isSelected := false, status := .adding }] } := by
    unfold beginAddIteration
    rw [find?_id_map s mid _
      (fun mo => by
        by_cases h : mo.id = mid
        · rw [if_pos h]
        · rw [if_neg h]), hfind]
    simp only [Option.map]
    rw [if_pos hmid]
  refine ⟨h1, ?_, ?_⟩
  · rw [hbegin]
    rfl
  · intro hempty
    have hid1 : newIterationId s mid = "EM-1" := by
      rw [h1, hempty]
      decide
    have hbegin1 : (beginAddIteration s mid).find? (fun mo => mo.id == mid)
        = some { m with iterations :=
            [{ id := "EM-1", title := "Adding iteration...",
               isSelected := false, status := .adding }] } := by
      rw [hbegin, hempty, hid1]
      rfl
    unfold completeAddIteration
    rw [find?_id_map _ mid _
      (fun mo => by
        by_cases h : mo.id = mid
        · rw [if_pos h]
        · rw [if_neg h]), hbegin1]
    simp only [Option.map]
    rw [if_pos hmid]
    rfl

theorem beginAdd_appends_next_id_witness :
    newIterationId initialModules "em-1" = "EM-" ++ Nat.repr 1 ∧
    ((beginAddIteration initialModules "em-1").find?
        (fun mo => mo.id == "em-1")).map (fun mo => mo.iterations)
      = some ([] ++
          [{ id := newIterationId initialModules "em-1",
             title := "Adding iteration...", isSelected := false,
             status := .adding }]) ∧
    ((completeAddIteration (beginAddIteration initialModules "em-1") "em-1"
        "EM-1" (some "My Title")).find? (fun mo => mo.id == "em-1")).map
        (fun mo => mo.iterations)
      = some [{ id := "EM-1", title := "My Title", isSelected := false,
                status := .completed }] :=
  ⟨(beginAdd_appends_next_id initialModules "em-1"
      { id := "em-1", title := "Experiment Module", isLocked := false,
        isExpanded := false, iterations := [] } (by decide)).1,
   (beginAdd_appends_next_id initialModules "em-1"
      { id := "em-1", title := "Experiment Module", isLocked := false,
        isExpanded := false, iterations := [] } (by decide)).2.1,
   (beginAdd_appends_next_id initialModules "em-1"
      { id := "em-1", title := "Experiment Module", isLocked := false,
        isExpanded := false, iterations := [] } (by decide)).2.2 rfl⟩

/-- C1 as literally stated is false on the code: the first iteration of a
fresh module gets the id `"EM-1"`, not `"1"`, and `completeAddIteration` with
the id `"1"` is a no-op on that module (the iteration stays in `adding`). -/
theorem first_iteration_id_not_one_counterexample :
    beginAddIteration initialModules "em-1"
      = [{ id := "em-1", title := "Experiment Module", isLocked := false,
           isExpanded := false,
           iterations := [{ id := "EM-1", title := "Adding iteration...",
                            isSelected := false, status := .adding }] }] ∧
    ¬ ("EM-1" : String) = "1" ∧
    completeAddIteration (beginAddIteration initialModules "em-1") "em-1" "1"
        (some "My Title")
      = beginAddIteration initialModules "em-1" := by
  exact ⟨by decide, by decide, by decide⟩

/-- C10. `completeAddIteration` applies the fallback title
`"Iteration title"` both when no title is supplied and when the supplied title
is the empty string; the add dialog's submit handler converts a
whitespace-only input to an absent title; hence a completed iteration's title
is never the empty string. -/
theorem completed_title_never_empty (iid : String) (prompt : Option String) :
    (∀ it : Iteration, it.id = iid →
      (completeIteration iid none it).title = "Iteration title") ∧
    (∀ it : Iteration, it.id = iid →
      (completeIteration iid (some "") it).title = "Iteration title") ∧
    (∀ b : Bool, ∀ p : String, p.trim = "" → handleSubmitPrompt b p = none) ∧
    (∀ it : Iteration, it.id = iid →
      ¬ (completeIteration iid prompt it).title = "") := by
  refine ⟨?_, ?_, ?_, ?_⟩
  · intro it hi
    unfold completeIteration
    rw [if_pos hi]
    rfl
  · intro it hi
    unfold completeIteration
    rw [if_pos hi]
    simp [jsOrString]
  · intro b p hp
    cases b <;> simp [handleSubmitPrompt, hp]
  · intro it hi
    unfold completeIteration
    rw [if_pos hi]
    show ¬ jsOrString prompt "Iteration title" = ""
    cases prompt with
    | none => decide
    | some v =>
      show ¬ (if v = "" then "Iteration title" else v) = ""
      by_cases hv : v = ""
      · rw [if_pos hv]
        decide
      · rw [if_neg hv]
        exact hv

theorem completed_title_never_empty_witness :
    (completeIteration "EM-1" none
        { id := "EM-1", title := "Adding iteration...", isSelected := false,
          status := .adding }).title = "Iteration title" ∧
    (completeIteration "EM-1" (some "")
        { id := "EM-1", title := "Adding iteration...", isSelected := false,
          status := .adding }).title = "Iteration title" ∧
    handleSubmitPrompt true "" = none ∧
    ¬ (completeIteration "EM-1" (some "x")
        { id := "EM-1", title := "Adding iteration...", isSelected := false,
          status := .adding }).title = "" :=
  ⟨(completed_title_never_empty "EM-1" (some "x")).1
     { id := "EM-1", title := "Adding iteration...", isSelected := false,
       status := .adding } rfl,
   (completed_title_never_empty "EM-1" (some "x")).2.1
     { id := "EM-1", title := "Adding iteration...", isSelected := false,
       status := .adding } rfl,
   (completed_title_never_empty "EM-1" (some "x")).2.2.1 true ""
     (by
       simp [String.trim, Substring.trim, String.toSubstring,
         Substring.trimLeft, Substring.trimRight, Substring.takeWhileAux,
         Substring.takeRightWhileAux, Substring.toString]
       decide),
   (completed_title_never_empty "EM-1" (some "x")).2.2.2
     { id := "EM-1", title := "Adding iteration...", isSelected := false,
       status := .adding } rfl⟩

/-- C3 (amended). `completeAddIteration` with an iteration id absent from the
named module leaves the collection entirely unchanged (so nothing is
resurrected and the length is unchanged); with the id present it sets the
iteration's status to `completed` and its title to the supplied title whenever
that title is nonempty (an absent or empty title falls back to
`"Iteration title"`). -/
theorem completeAdd_absent_noop_present_completes (s : List ExperimentModuleData)
    (mid iid : String) (prompt : Option String) :
    ((∀ m ∈ s, m.id = mid → ∀ it ∈ m.iterations, it.id ≠ iid) →
      completeAddIteration s mid iid prompt = s) ∧
    (∀ t : String, t ≠ "" → ∀ it : Iteration, it.id = iid →
      completeIteration iid (some t) it
        = { it with title := t, status := .completed }) := by
  constructor
  · exact completeAdd_noop_of_absent s mid iid prompt
  · intro t ht it hi
    unfold completeIteration
    rw [if_pos hi]
    simp [jsOrString, ht]

theorem completeAdd_absent_noop_present_completes_witness :
    completeAddIteration initialModules "em-1" "EM-1" (some "My Title")
      = initialModules ∧
    completeIteration "EM-1" (some "My Title")
        { id := "EM-1", title := "Adding iteration...", isSelected := false,
          status := .adding }
      = { id := "EM-1", title := "My Title", isSelected := false,
          status := .completed } :=
  ⟨(completeAdd_absent_noop_present_completes initialModules "em-1" "EM-1"
      (some "My Title")).1 (by decide),
   (completeAdd_absent_noop_present_completes initialModules "em-1" "EM-1"
      (some "My Title")).2 "My Title" (by decide)
     { id := "EM-1", title := "Adding iteration...", isSelected := false,
       status := .adding } rfl⟩

/-- C3 as literally stated is false on the code: with the iteration `EM-1`
present, `completeAddIteration` called with the supplied title `""` sets the
title to the fallback `"Iteration title"`, not to the supplied title. -/
theorem completeAdd_empty_title_counterexample :
    completeAddIteration (beginAddIteration initialModules "em-1") "em-1" "EM-1"
        (some "")
      = [{ id := "em-1", title := "Experiment Module", isLocked := false,
           isExpanded := false,
           iterations := [{ id := "EM-1", title := "Iteration title",
                            isSelected := false, status := .completed }] }] ∧
    ¬ "Iteration title" = "" := by
  exact ⟨by decide, by decide⟩

/-- C5 (amended). `removeIteration` removes every iteration of the module
whose id matches, regardless of status — exactly one entry when the id occurs
exactly once — and repeating it with the same (now absent) id leaves the
collection unchanged. -/
theorem removeIteration_filters_matching (s : List ExperimentModuleData)
    (mid iid : String) :
    (∀ m : ExperimentModuleData, m.id = mid →
      (removeIterationFromModule mid iid m).iterations
        = m.iterations.filter (fun it => it.id != iid)) ∧
    (∀ m : ExperimentModuleData, m.id = mid →
      (m.iterations.filter (fun it => it.id == iid)).length = 1 →
      (removeIterationFromModule mid iid m).iterations.length + 1
        = m.iterations.length) ∧
    handleRemoveIteration (handleRemoveIteration s mid iid) mid iid
      = handleRemoveIteration s mid iid := by
  refine ⟨?_, ?_, ?_⟩
  · intro m h
    unfold removeIterationFromModule
    rw [if_pos h]
  · intro m h h1
    have h2 : (m.iterations.filter (fun it => !(it.id == iid))).length +
        (m.iterations.filter (fun it => it.id == iid)).length
          = m.iterations.length :=
      length_filter_not_add m.iterations (fun it => it.id == iid)
    have h3 : (removeIterationFromModule mid iid m).iterations
        = m.iterations.filter (fun it => it.id != iid) := by
      unfold removeIterationFromModule
      rw [if_pos h]
    rw [h3]
    show (m.iterations.filter (fun it => !(it.id == iid))).length + 1
      = m.iterations.length
    omega
  · unfold handleRemoveIteration
    rw [List.map_map]
    apply List.map_congr_left
    intro m _
    show removeIterationFromModule mid iid (removeIterationFromModule mid iid m)
      = removeIterationFromModule mid iid m
    obtain ⟨mi, mt, ml, me, mits⟩ := m
    by_cases h : mi = mid
    · simp [removeIterationFromModule, h, filter_idempotent]
    · simp [removeIterationFromModule, h]

theorem removeIteration_filters_matching_witness :
    (removeIterationFromModule "em-1" "EM-1"
        { id := "em-1", title := "Experiment Module", isLocked := false,
          isExpanded := false,
          iterations := [{ id := "EM-1", title := "t", isSelected := false,
                           status := .adding },
                         { id := "EM-2", title := "u", isSelected := true,
                           status := .completed }] }).iterations
      = [{ id := "EM-2", title := "u", isSelected := true,
           status := .completed }] ∧
    (removeIterationFromModule "em-1" "EM-1"
        { id := "em-1", title := "Experiment Module", isLocked := false,
          isExpanded := false,
          iterations := [{ id := "EM-1", title := "t", isSelected := false,
                           status := .adding },
                         { id := "EM-2", title := "u", isSelected := true,
                           status := .completed }] }).iterations.length + 1 = 2 ∧
    handleRemoveIteration (handleRemoveIteration initialModules "em-1" "EM-1")
        "em-1" "EM-1"
      = handleRemoveIteration initialModules "em-1" "EM-1" := by
  refine ⟨?_, ?_, (removeIteration_filters_matching initialModules "em-1" "EM-1").2.2⟩
  · have := (removeIteration_filters_matching initialModules "em-1" "EM-1").1
      { id := "em-1", title := "Experiment Module", isLocked := false,
        isExpanded := false,
        iterations := [{ id := "EM-1", title := "t", isSelected := false,
                         status := .adding },
                       { id := "EM-2", title := "u", isSelected := true,
                         status := .completed }] } rfl
    rw [this]
    decide
  · have := (removeIteration_filters_matching initialModules "em-1" "EM-1").2.1
      { id := "em-1", title := "Experiment Module", isLocked := false,
        isExpanded := false,
        iterations := [{ id := "EM-1", title := "t", isSelected := false,
                         status := .adding },
                       { id := "EM-2", title := "u", isSelected := true,
                         status := .completed }] } rfl (by decide)
    exact this

/-- C5 as literally stated is false on the code: after a removal-then-add
history produces two iterations with the duplicate id `EM-2`,
`removeIteration` with `EM-2` removes both entries (the iteration list goes
from length 2 to length 0), not exactly one. -/
theorem removeIteration_removes_two_counterexample :
    applyOps initialModules
        [.beginAdd "em-1", .completeAdd "em-1" "EM-1" (some "A"),
         .beginAdd "em-1", .completeAdd "em-1" "EM-2" (some "B"),
         .removeIteration "em-1" "EM-1", .beginAdd "em-1"]
      = [{ id := "em-1", title := "Experiment Module", isLocked := false,
           isExpanded := false,
           iterations := [{ id := "EM-2", title := "B", isSelected := false,
                            status := .completed },
                          { id := "EM-2", title := "Adding iteration...",
                            isSelected := false, status := .adding }] }] ∧
    handleRemoveIteration
        (applyOps initialModules
          [.beginAdd "em-1", .completeAdd "em-1" "EM-1" (some "A"),
           .beginAdd "em-1", .completeAdd "em-1" "EM-2" (some "B"),
           .removeIteration "em-1" "EM-1", .beginAdd "em-1"])
        "em-1" "EM-2"
      = [{ id := "em-1", title := "Experiment Module", isLocked := false,
           isExpanded := false, iterations := [] }] := by
  exact ⟨by decide, by decide⟩

theorem resetModule_clears_selection_only_witness :
    handleResetModule (handleResetModule initialModules "em-1") "em-1"
      = handleResetModule initialModules "em-1" ∧
    resetModuleData "em-1"
        { id := "em-2", title := "Experiment Module", isLocked := false,
          isExpanded := false, iterations := [] }
      = { id := "em-2", title := "Experiment Module", isLocked := false,
          isExpanded := false, iterations := [] } ∧
    ∀ it ∈ (resetModuleData "em-1"
        { id := "em-1", title := "Experiment Module", isLocked := true,
          isExpanded := true,
          iterations := [{ id := "EM-1", title := "t", isSelected := true,
                           status := .completed }] }).iterations,
      it.isSelected = false :=
  ⟨(resetModule_clears_selection_only initialModules "em-1").1,
   (resetModule_clears_selection_only initialModules "em-1").2.1
     { id := "em-2", title := "Experiment Module", isLocked := false,
       isExpanded := false, iterations := [] } (by decide),
   ((resetModule_clears_selection_only initialModules "em-1").2.2
     { id := "em-1", title := "Experiment Module", isLocked := true,
       isExpanded := true,
       iterations := [{ id := "EM-1", title := "t", isSelected := true,
                        status := .completed }] } rfl).2.2.2.2.2⟩

/-! ### Invariants along removal-free histories (C9) -/

theorem moduleIds_nodup (s : List ExperimentModuleData) (h : ModuleIds s) :
    (s.map (fun m => m.id)).Nodup := by
  unfold ModuleIds at h
  rw [h]
  exact (List.nodup_range _).map (fun a b hab => by
    have := append_repr_inj "em-" (a + 1) (b + 1) hab
    omega)

theorem seqIds_of_same_ids (m m2 : ExperimentModuleData)
    (h : m2.iterations.map (fun it => it.id) = m.iterations.map (fun it => it.id))
    (hm : SeqIds m) : SeqIds m2 := by
  unfold SeqIds at hm ⊢
  have hlen : m2.iterations.length = m.iterations.length := by
    have hl := congrArg List.length h
    simpa using hl
  rw [h, hlen, hm]

theorem seqIds_map_iterations (m : ExperimentModuleData) (g : Iteration → Iteration)
    (hg : ∀ it, (g it).id = it.id) (hm : SeqIds m) :
    SeqIds { m with iterations := m.iterations.map g } := by
  refine seqIds_of_same_ids m _ ?_ hm
  show (m.iterations.map g).map (fun it => it.id) = m.iterations.map (fun it => it.id)
  rw [List.map_map]
  exact List.map_congr_left (fun it _ => hg it)

theorem moduleIds_map_preserve (s : List ExperimentModuleData)
    (f : ExperimentModuleData → ExperimentModuleData)
    (hf : ∀ m, (f m).id = m.id) (h : ModuleIds s) : ModuleIds (s.map f) := by
  unfold ModuleIds at h ⊢
  rw [List.length_map, List.map_map]
  calc s.map ((fun m => m.id) ∘ f)
      = s.map (fun m => m.id) := List.map_congr_left (fun a _ => hf a)
    _ = _ := h

theorem storeInv_map (s : List ExperimentModuleData)
    (f : ExperimentModuleData → ExperimentModuleData)
    (hf : ∀ m, (f m).id = m.id)
    (hfs : ∀ m ∈ s, SeqIds m → SeqIds (f m))
    (hinv : StoreInv s) : StoreInv (s.map f) := by
  obtain ⟨hids, hseq⟩ := hinv
  refine ⟨moduleIds_map_preserve s f hf hids, ?_⟩
  intro m hm
  obtain ⟨m0, hm0, rfl⟩ := List.mem_map.mp hm
  exact hfs m0 hm0 (hseq m0 hm0)

theorem storeInv_applyOp (s : List ExperimentModuleData) (op : StoreOp)
    (hnr : isRemoval op = false) (hinv : StoreInv s) :
    StoreInv (applyOp s op) := by
  cases op with
  | createModule =>
    show StoreInv (addNewModule s)
    obtain ⟨hids, hseq⟩ := hinv
    constructor
    · unfold ModuleIds at hids ⊢
      unfold addNewModule
      rw [List.map_append, List.length_append]
      simp only [List.map_cons, List.map_nil, List.length_cons, List.length_nil]
      rw [hids, List.range_succ, List.map_append]
      simp
    · intro m hm
      unfold addNewModule at hm
      rcases List.mem_append.mp hm with h | h
      · exact hseq m h
      · rw [List.mem_singleton] at h
        subst h
        unfold SeqIds
        rfl
  | toggleExpand mid =>
    show StoreInv (handleToggleExpand s mid)
    unfold handleToggleExpand
    refine storeInv_map s _ ?_ ?_ hinv
    · intro m
      by_cases h : m.id = mid
      · rw [if_pos h]
      · rw [if_neg h]
    · intro m _ hm
      by_cases h : m.id = mid
      · rw [if_pos h]
        exact hm
      · rw [if_neg h]
        exact hm
  | toggleLock mid =>
    show StoreInv (handleToggleLock s mid)
    unfold handleToggleLock
    refine storeInv_map s _ ?_ ?_ hinv
    · intro m
      unfold toggleLockModule
      by_cases h : m.id = mid
      · rw [if_pos h]
      · rw [if_neg h]
    · intro m _ hm
      unfold toggleLockModule
      by_cases h : m.id = mid
      · rw [if_pos h]
        exact hm
      · rw [if_neg h]
        exact hm
  | lockModule mid =>
    show StoreInv (handleLockModule s mid)
    unfold handleLockModule
    refine storeInv_map s _ ?_ ?_ hinv
    · intro m
      by_cases h : m.id = mid
      · rw [if_pos h]
      · rw [if_neg h]
    · intro m _ hm
      by_cases h : m.id = mid
      · rw [if_pos h]
        exact hm
      · rw [if_neg h]
        exact hm
  | resetModule mid =>
    show StoreInv (handleResetModule s mid)
    unfold handleResetModule
    refine storeInv_map s _ ?_ ?_ hinv
    · intro m
      unfold resetModuleData
      by_cases h : m.id = mid
      · rw [if_pos h]
      · rw [if_neg h]
    · intro m _ hm
      unfold resetModuleData
      by_cases h : m.id = mid
      · rw [if_pos h]
        exact seqIds_map_iterations m resetIteration (fun it => rfl) hm
      · rw [if_neg h]
        exact hm
  | toggleSelection mid iid =>
    show StoreInv (handleToggleSelection s mid iid)
    unfold handleToggleSelection
    refine storeInv_map s _ ?_ ?_ hinv
    · intro m
      unfold toggleSelectionModule
      by_cases h : m.id = mid
      · rw [if_pos h]
      · rw [if_neg h]
    · intro m _ hm
      unfold toggleSelectionModule
      by_cases h : m.id = mid
      · rw [if_pos h]
        refine seqIds_map_iterations m (toggleSelectionIteration iid) ?_ hm
        intro it
        unfold toggleSelectionIteration
        by_cases hi : it.id = iid
        · rw [if_pos hi]
        · rw [if_neg hi]
      · rw [if_neg h]
        exact hm
  | completeAdd mid iid prompt =>
    show StoreInv (completeAddIteration s mid iid prompt)
    unfold completeAddIteration
    refine storeInv_map s _ ?_ ?_ hinv
    · intro m
      by_cases h : m.id = mid
      · rw [if_pos h]
      · rw [if_neg h]
    · intro m _ hm
      by_cases h : m.id = mid
      · rw [if_pos h]
        refine seqIds_map_iterations m (completeIteration iid prompt) ?_ hm
        intro it
        unfold completeIteration
        by_cases hi : it.id = iid
        · rw [if_pos hi]
        · rw [if_neg hi]
      · rw [if_neg h]
        exact hm
  | beginAdd mid =>
    show StoreInv (beginAddIteration s mid)
    obtain ⟨hids, hseq⟩ := hinv
    unfold beginAddIteration
    refine storeInv_map s _ ?_ ?_ ⟨hids, hseq⟩
    · intro m
      by_cases h : m.id = mid
      · rw [if_pos h]
      · rw [if_neg h]
    · intro m hm hsm
      by_cases h : m.id = mid
      · rw [if_pos h]
        have hnodup := moduleIds_nodup s hids
        have hexist : (s.find? (fun mo => mo.id == mid)).isSome := by
          rw [List.find?_isSome]
          exact ⟨m, hm, by simp [h]⟩
        obtain ⟨m1, hfind⟩ := Option.isSome_iff_exists.mp hexist
        have hm1mem := List.mem_of_find?_eq_some hfind
        have hm1id : m1.id = mid := by simpa using List.find?_some hfind
        have heq : m1 = m :=
          List.inj_on_of_nodup_map hnodup hm1mem hm (by rw [hm1id, h])
        have hnew : newIterationId s mid = iterationIdAt m.iterations.length := by
          unfold newIterationId getNextIterationNumber iterationIdAt
          rw [hfind]
          subst heq
          rfl
        unfold SeqIds at hsm ⊢
        show (m.iterations ++
            ([{ id := newIterationId s mid, title := "Adding iteration...",
                isSelected := false, status := .adding }] : List Iteration)).map
              (fun it => it.id)
          = (List.range (m.iterations ++
              ([{ id := newIterationId s mid, title := "Adding iteration...",
                  isSelected := false, status := .adding }] : List Iteration)).length).map
              iterationIdAt
        rw [List.map_append, hsm, hnew, List.length_append]
        simp [List.range_succ]
      · rw [if_neg h]
        exact hsm
  | removeIteration mid iid =>
    exact absurd hnr (by simp [isRemoval])

theorem storeInv_applyOps : ∀ (ops : List StoreOp) (s : List ExperimentModuleData),
    (∀ op ∈ ops, isRemoval op = false) → StoreInv s →
    StoreInv (applyOps s ops) := by
  intro ops
  induction ops with
  | nil =>
    intro s _ h
    exact h
  | cons op rest ih =>
    intro s hall h
    have h1 := storeInv_applyOp s op (hall op (List.mem_cons_self op rest)) h
    exact ih (applyOp s op) (fun o ho => hall o (List.mem_cons_of_mem op ho)) h1

/-- C9. Because an iteration's id is derived from the current list length,
the history add, complete, add, complete, remove-the-earlier, add produces a
module whose two (distinct) iterations both carry the id `EM-2`; along any
history of store operations with no removal, every module's iteration ids are
pairwise distinct. -/
theorem iteration_id_duplication (ops : List StoreOp) :
    applyOps initialModules
        [.beginAdd "em-1", .completeAdd "em-1" "EM-1" (some "first"),
         .beginAdd "em-1", .completeAdd "em-1" "EM-2" (some "second"),
         .removeIteration "em-1" "EM-1", .beginAdd "em-1"]
      = [{ id := "em-1", title := "Experiment Module", isLocked := false,
           isExpanded := false,
           iterations := [{ id := "EM-2", title := "second",
                            isSelected := false, status := .completed },
                          { id := "EM-2", title := "Adding iteration...",
                            isSelected := false, status := .adding }] }] ∧
    ({ id := "EM-2", title := "second", isSelected := false,
       status := .completed } : Iteration)
      ≠ { id := "EM-2", title := "Adding iteration...", isSelected := false,
          status := .adding } ∧
    ({ id := "EM-2", title := "second", isSelected := false,
       status := .completed } : Iteration).id
      = ({ id := "EM-2", title := "Adding iteration...", isSelected := false,
           status := .adding } : Iteration).id ∧
    ((∀ op ∈ ops, isRemoval op = false) →
      ∀ m ∈ applyOps initialModules ops,
        (m.iterations.map (fun it => it.id)).Nodup) := by
  refine ⟨by decide, by decide, rfl, ?_⟩
  intro hops m hm
  have hinv := storeInv_applyOps ops initialModules hops
    ⟨by unfold ModuleIds; decide,
     by
       intro m0 hm0
       unfold initialModules at hm0
       rw [List.mem_singleton] at hm0
       subst hm0
       unfold SeqIds
       rfl⟩
  have hseq := hinv.2 m hm
  unfold SeqIds at hseq
  rw [hseq]
  exact nodup_iterationIds _

theorem iteration_id_duplication_witness :
    (([{ id := "EM-1", title := "Adding iteration...", isSelected := false,
         status := .adding }] : List Iteration).map (fun it => it.id)).Nodup :=
  (iteration_id_duplication [.beginAdd "em-1"]).2.2.2 (by decide)
    { id := "em-1", title := "Experiment Module", isLocked := false,
      isExpanded := false,
      iterations := [{ id := "EM-1", title := "Adding iteration...",
                       isSelected := false, status := .adding }] }
    (by decide)
